import Mathlib

/-!
Shallow embedding of `sawtooth_rest_api/route_handlers.py` (class `RouteHandler`),
the request/response translation engine of the Sawtooth REST API gateway.

HTTP requests are modelled by their components (scheme, host, path, ordered
query-parameter list, headers); validator replies by the already-decoded
dictionaries the handlers inspect.  Python dicts with string keys become
ordered association lists; Python exceptions become explicit outcome
constructors; external library calls (base64 decoding, protobuf parsing)
become function parameters or abstract outcome values, per the spec's
external-interface contract.
-/

namespace SawtoothRestApi

/-- A JSON-like value, as produced by `json` decoding and `MessageToDict`. -/
inductive JValue : Type where
  | null : JValue
  | str : String → JValue
  | num : Int → JValue
  | bool : Bool → JValue
  | arr : List JValue → JValue
  | obj : List (String × JValue) → JValue

/-- The client-error response objects from `sawtooth_rest_api.exceptions`
returned (not raised) by the handlers' validation code. -/
inductive RestError : Type where
  | WrongBodyType
  | EmptyProtobuf
  | BadProtobuf
  | BadStatusBody
  | MissingStatusId
  | ValidatorUnavailable
  deriving DecidableEq

/-- Outcome of a handler fragment: a normal value, an error response object
returned to the client, or an uncaught Python exception (by name). -/
inductive PyOutcome (α : Type) : Type where
  | ok : α → PyOutcome α
  | clientError : RestError → PyOutcome α
  | exn : String → PyOutcome α

instance {α : Type} [DecidableEq α] : DecidableEq (PyOutcome α) := fun a b => by
  cases a <;> cases b <;>
    first
      | · rename_i x y
          exact
            if h : x = y then isTrue (by rw [h])
            else isFalse (by intro hc; cases hc; exact h rfl)
      | exact isFalse (by intro h; cases h)

/-- `JValue.isStr` models Python `isinstance(x, str)`. -/
def JValue.isStr : JValue → Bool
  | .str _ => true
  | _ => false

/-! ### Models of the Python string builtins the handlers call -/

/-- Python `str.lower()`, character-wise case mapping (the handlers only
lower-compare against the ASCII literal "false"). -/
def pyLower (s : String) : String :=
  String.mk (s.data.map Char.toLower)

/-- Whether the first list is an initial segment of the second. -/
def charsStartWith : List Char → List Char → Bool
  | [], _ => true
  | _ :: _, [] => false
  | p :: ps, c :: cs => p == c && charsStartWith ps cs

/-- Fuel-bounded scan of Python `str.replace`: at each position a match of
the (non-empty) pattern is replaced and the scan resumes after it, so every
non-overlapping occurrence is replaced left to right. -/
def replaceChars (pat rep : List Char) : Nat → List Char → List Char
  | 0, s => s
  | _ + 1, [] => []
  | fuel + 1, c :: rest =>
    if charsStartWith pat (c :: rest) then
      rep ++ replaceChars pat rep fuel ((c :: rest).drop pat.length)
    else
      c :: replaceChars pat rep fuel rest

/-- Python `s.replace(pat, rep)` for a non-empty pattern. -/
def pyReplace (s pat rep : String) : String :=
  String.mk (replaceChars pat.data rep.data s.data.length s.data)

/-- The whitespace Python `int()` strips. -/
def isPySpace (c : Char) : Bool :=
  c == ' ' || c == '\t' || c == '\n' || c == '\r' || c == '\x0b' || c == '\x0c'

/-- Decimal digit accumulation. -/
def digitsToNat : List Char → Nat → Nat
  | [], acc => acc
  | c :: cs, acc => digitsToNat cs (acc * 10 + (c.toNat - 48))

/-- Splitting step of Python `s.split(',')`. -/
def splitCommaAux : List Char → List Char → List String
  | [], acc => [String.mk acc.reverse]
  | c :: cs, acc =>
    if c == ',' then String.mk acc.reverse :: splitCommaAux cs []
    else splitCommaAux cs (c :: acc)

/-- Python `s.split(',')`: the empty string yields a single empty field,
never an empty list. -/
def pySplitComma (s : String) : List String :=
  splitCommaAux s.data []

/-! ## submit_batches: response envelope (lines 106-124)

`submit_batches` ends with:
  data = response['batch_statuses'] or None
  link = '<scheme>://<host>/batch_status?id=<comma-joined header signatures>'
  if data is None: status = 202
  elif any(s != 'COMMITTED' for _, s in data.items()): status = 200
  else: status = 201; data = None; link = link.replace('batch_status', 'batches')
The reply's `batch_statuses` map is an ordered association list; `or None`
turns the empty (falsy) map into `None`. -/

/-- The `/batch_status` link built by `submit_batches` from the submitted
batch header signatures, joined by commas in input order. -/
def submitLink (scheme host : String) (batchIds : List String) : String :=
  scheme ++ "://" ++ host ++ "/batch_status?id=" ++ String.intercalate "," batchIds

/-- The (HTTP status, data, link) triple `submit_batches` passes to
`_wrap_response` once the validator query has succeeded. -/
def submitEnvelope (scheme host : String) (batchIds : List String)
    (batchStatuses : List (String × String)) :
    Nat × Option (List (String × String)) × String :=
  let data := if batchStatuses.isEmpty then none else some batchStatuses
  let link := submitLink scheme host batchIds
  match data with
  | none => (202, none, link)
  | some d =>
    if d.any (fun p => p.2 != "COMMITTED") then (200, some d, link)
    else (201, none, pyReplace link "batch_status" "batches")

/-! ## _set_wait (lines 470-481)

  wait = request.url.query.get('wait', 'false')
  if wait.lower() != 'false':
      validator_query.wait_for_commit = True
      try: validator_query.timeout = int(wait)
      except ValueError: validator_query.timeout = int(self._timeout * 0.95)
-/

/-- The two wait-related fields of a `ClientBatchSubmitRequest` /
`ClientBatchStatusRequest` protobuf; both default to unset (false / 0). -/
structure ValidatorQuery where
  wait_for_commit : Bool := false
  timeout : Int := 0
  deriving DecidableEq

/-- Models Python `int(s)` for strings: optional surrounding whitespace, an
optional sign, then decimal digits; `none` models the `ValueError` branch.
(Digit-group underscores and non-ASCII digits are outside this model; no
caller-relevant claim depends on them.) -/
def pyInt (s : String) : Option Int :=
  let t := ((s.data.dropWhile isPySpace).reverse.dropWhile isPySpace).reverse
  let signed : Bool × List Char :=
    match t with
    | '-' :: rest => (true, rest)
    | '+' :: rest => (false, rest)
    | _ => (false, t)
  if signed.2.isEmpty then none
  else if signed.2.all Char.isDigit then
    some
      (if signed.1 then -(digitsToNat signed.2 0 : Int)
       else (digitsToNat signed.2 0 : Int))
  else none

/-- `_set_wait`: reads the `wait` query parameter (default the string
"false") and updates the validator query.  `timeoutCfg` is the REST API's
configured timeout in seconds; `int(self._timeout * 0.95)` is modelled
exactly as the truncated product `timeoutCfg * 95 / 100` (equal to the
float computation at every realistic timeout, e.g. 285 at the default 300). -/
def setWait (timeoutCfg : Nat) (waitParam : Option String) (q : ValidatorQuery) :
    ValidatorQuery :=
  let wait := waitParam.getD "false"
  if pyLower wait != "false" then
    { q with
      wait_for_commit := true
      timeout :=
        match pyInt wait with
        | some n => n
        | none => (timeoutCfg * 95 / 100 : Nat) }
  else q

/-! ## _try_response_parse and the error-trap chain (lines 366-393)

The handler code appends, after the caller-supplied endpoint traps, the
baseline traps `Unknown(proto.INTERNAL_ERROR)`, `NotReady(proto.NOT_READY)`
and `MissingHead(proto.NO_ROOT)` in that order, each inside a
`try/except AttributeError` so that a reply type lacking that status enum
member simply skips the trap.  Then `for trap in traps: trap.check(parsed.status)`
raises the first matching trap's error, else `message_to_dict(parsed)` is
returned. -/

/-- An error trap: a protobuf status code and the error it raises.
Modelled from the spec: the trap classes live in
`sawtooth_rest_api/error_handlers.py` (outside src/); per spec section 4.2 a
trap's `check(status)` raises its associated error exactly when the status
matches its code, and otherwise returns normally. -/
structure ErrorTrap where
  code : Nat
  error : String
  deriving DecidableEq

/-- Modelled from the spec: `check` raises (here: yields `some error`) iff
the reply status equals the trap's code. -/
def ErrorTrap.check (t : ErrorTrap) (status : Nat) : Option String :=
  if status = t.code then some t.error else none

/-- The status enum members a reply protobuf class may or may not define;
`none` models the `AttributeError` taken when the member is absent. -/
structure ProtoStatuses where
  internalErrorCode : Option Nat
  notReadyCode : Option Nat
  noRootCode : Option Nat
  deriving DecidableEq

/-- The three baseline traps appended by `_try_response_parse`, in source
order (Unknown, NotReady, MissingHead), each skipped when its status enum
member is absent from the reply type. -/
def baselineTraps (p : ProtoStatuses) : List ErrorTrap :=
  (match p.internalErrorCode with
   | some c => [ErrorTrap.mk c "Unknown"]
   | none => []) ++
  (match p.notReadyCode with
   | some c => [ErrorTrap.mk c "NotReady"]
   | none => []) ++
  (match p.noRootCode with
   | some c => [ErrorTrap.mk c "MissingHead"]
   | none => [])

/-- The `for trap in traps: trap.check(parsed.status)` loop: the first trap
whose check raises determines the outcome. -/
def runTraps : List ErrorTrap → Nat → Option String
  | [], _ => none
  | t :: ts, status =>
    match t.check status with
    | some e => some e
    | none => runTraps ts status

/-- `_try_response_parse`: endpoint traps first (in the order given), then
the baseline traps; the first match raises its error, otherwise the parsed
payload is returned as a dict. -/
def tryResponseParse (p : ProtoStatuses) (endpointTraps : List ErrorTrap)
    (status : Nat) (payload : List (String × JValue)) :
    Except String (List (String × JValue)) :=
  match runTraps (endpointTraps ++ baselineTraps p) status with
  | some e => Except.error e
  | none => Except.ok payload

/-! ## _get_metadata (lines 413-433)

  head = response.get('head_id', None)
  if not head: return {'link': str(request.url)}
  link = '<scheme>://<host><path>?head=<head>'
  headless = ['k=v' for k, v in request.url.query.items() if k != 'head']
  if len(headless) > 0: link += '&' + '&'.join(headless)
  return {'head': head, 'link': link}
-/

/-- The components of the client's HTTP request URL; `query` is the ordered
multi-dict of query parameters. -/
structure HttpRequest where
  scheme : String
  host : String
  path : String
  query : List (String × String)
  deriving DecidableEq

/-- `str(request.url)`: the full request URL rendered from its components. -/
def HttpRequest.urlString (r : HttpRequest) : String :=
  r.scheme ++ "://" ++ r.host ++ r.path ++
    (if r.query.isEmpty then ""
     else "?" ++ String.intercalate "&" (r.query.map (fun p => p.1 ++ "=" ++ p.2)))

/-- `_get_metadata`, with `headId` the reply dict's `head_id` entry (`none`
when the key is absent; `some ""` when present but empty — both are falsy
in `if not head`).  Returns the metadata dict as an ordered list. -/
def getMetadata (r : HttpRequest) (headId : Option String) :
    List (String × String) :=
  let head := headId.getD ""
  if head = "" then [("link", r.urlString)]
  else
    let base := r.scheme ++ "://" ++ r.host ++ r.path ++ "?head=" ++ head
    let headless := (r.query.filter (fun p => p.1 != "head")).map
      (fun p => p.1 ++ "=" ++ p.2)
    let link :=
      if headless.length > 0 then base ++ "&" ++ String.intercalate "&" headless
      else base
    [("head", head), ("link", link)]

/-! ## _expand_block / _expand_batch / _expand_transaction / _parse_header
(lines 435-468)

Each record dict carries a `header` field that arrives from `MessageToDict`
as a base64 string and is replaced in place by the structured dict obtained
from `base64.b64decode` + `ParseFromString` + `message_to_dict`.  That
external decoding chain (base64 and protobuf are library code, an external
contract per the spec) is a parameter `decode`; `none` models the exception
it raises on malformed input, which `_parse_header` lets propagate. -/

/-- A record's `header` field: either still the base64 string from the
validator reply, or the structured dict `_parse_header` wrote back. -/
inductive HeaderField : Type where
  | encoded : String → HeaderField
  | expanded : List (String × String) → HeaderField
  deriving DecidableEq

/-- True once the header is a structured dict, not a base64 string. -/
def HeaderField.isExpanded : HeaderField → Bool
  | .expanded _ => true
  | .encoded _ => false

/-- A transaction record (only its header matters to expansion). -/
structure TransactionRec where
  header : HeaderField
  deriving DecidableEq

/-- A batch record; `transactions = none` models the `'transactions' in
batch` membership test failing. -/
structure BatchRec where
  header : HeaderField
  transactions : Option (List TransactionRec)
  deriving DecidableEq

/-- A block record; `batches = none` models `'batches' in block` failing. -/
structure BlockRec where
  header : HeaderField
  batches : Option (List BatchRec)
  deriving DecidableEq

/-- `_parse_header`'s read of `obj['header']`: decoding a base64 string may
succeed or raise; a header that is already a structured dict is not a valid
argument to `base64.b64decode` (a `TypeError`, modelled as failure). -/
def parseHeaderField (decode : String → Option (List (String × String))) :
    HeaderField → Option (List (String × String))
  | .encoded s => decode s
  | .expanded _ => none

/-- A Python list comprehension over a fallible element transform: the
first raised exception aborts the whole comprehension. -/
def expandList {α β : Type} (f : α → Option β) : List α → Option (List β)
  | [] => some []
  | x :: xs =>
    match f x, expandList f xs with
    | some y, some ys => some (y :: ys)
    | _, _ => none

/-- `_expand_transaction`: `_parse_header(TransactionHeader, transaction)`. -/
def expandTransaction (decode : String → Option (List (String × String)))
    (t : TransactionRec) : Option TransactionRec :=
  (parseHeaderField decode t.header).map (fun d => TransactionRec.mk (.expanded d))

/-- `_expand_batch`: parse the batch header, then expand each transaction
when the `transactions` key is present. -/
def expandBatch (decode : String → Option (List (String × String)))
    (b : BatchRec) : Option BatchRec :=
  match parseHeaderField decode b.header with
  | none => none
  | some d =>
    match b.transactions with
    | none => some (BatchRec.mk (.expanded d) none)
    | some ts =>
      (expandList (expandTransaction decode) ts).map
        (fun ts2 => BatchRec.mk (.expanded d) (some ts2))

/-- `_expand_block`: parse the block header, then expand each batch when
the `batches` key is present. -/
def expandBlock (decode : String → Option (List (String × String)))
    (blk : BlockRec) : Option BlockRec :=
  match parseHeaderField decode blk.header with
  | none => none
  | some d =>
    match blk.batches with
    | none => some (BlockRec.mk (.expanded d) none)
    | some bs =>
      (expandList (expandBatch decode) bs).map
        (fun bs2 => BlockRec.mk (.expanded d) (some bs2))

/-- A transaction with no base64 header left. -/
def TransactionRec.fullyExpanded (t : TransactionRec) : Bool :=
  t.header.isExpanded

/-- A batch with no base64 header left at any depth. -/
def BatchRec.fullyExpanded (b : BatchRec) : Bool :=
  b.header.isExpanded &&
    (match b.transactions with
     | none => true
     | some ts => ts.all TransactionRec.fullyExpanded)

/-- A block with no base64 header left at any depth. -/
def BlockRec.fullyExpanded (blk : BlockRec) : Bool :=
  blk.header.isExpanded &&
    (match blk.batches with
     | none => true
     | some bs => bs.all BatchRec.fullyExpanded)

/-- The transaction count of a batch (`none` when the key is absent). -/
def BatchRec.shape (b : BatchRec) : Option Nat :=
  b.transactions.map List.length

/-- The per-batch transaction counts of a block, batch order preserved;
its outer list length is the batch count. -/
def BlockRec.shape (blk : BlockRec) : Option (List (Option Nat)) :=
  blk.batches.map (List.map BatchRec.shape)

/-! ## _try_validator_request (lines 346-364)

  future = self._stream.send(message_type=message_type, content=content)
  try: response = future.result(timeout=self._timeout)
  except FutureTimeoutError: raise errors.ValidatorUnavailable()
  try: return response.content
  except ValidatorConnectionError: raise errors.ValidatorUnavailable()
-/

/-- What awaiting the future and reading its content can do, per the spec's
Connection contract (section 4.1): the bounded wait raises a timeout error,
or the resolved result's `content` read raises a connection error (the
validator disconnected), or it yields the reply bytes. -/
inductive FutureOutcome : Type where
  | timedOut : FutureOutcome
  | connectionLost : FutureOutcome
  | content : String → FutureOutcome
  deriving DecidableEq

/-- `_try_validator_request`: its single `stream.send` call (first
component: the list of sends performed, recording that the request is never
retried) and its result: `ValidatorUnavailable` on timeout or connection
loss, otherwise the reply content unchanged. -/
def tryValidatorRequest (messageType : Nat) (content : String)
    (future : FutureOutcome) : List (Nat × String) × Except RestError String :=
  ([(messageType, content)],
   match future with
   | .timedOut => Except.error RestError.ValidatorUnavailable
   | .connectionLost => Except.error RestError.ValidatorUnavailable
   | .content c => Except.ok c)

/-! ## _wrap_response (lines 395-411)

  envelope = metadata or {}
  if data is not None: envelope['data'] = data
  return web.Response(status=status, content_type='application/json',
                      text=json.dumps(envelope, indent=2,
                                      separators=(',', ': '), sort_keys=True))
-/

/-- Python dict assignment `env[k] = v` on a string-keyed ordered dict:
overwrite in place when the key exists, else append. -/
def dictInsert (env : List (String × JValue)) (k : String) (v : JValue) :
    List (String × JValue) :=
  if env.any (fun p => p.1 == k) then
    env.map (fun p => if p.1 == k then (k, v) else p)
  else env ++ [(k, v)]

/-- Key order on envelope entries: compare the string keys. -/
def keyLE (a b : String × JValue) : Prop := a.1 ≤ b.1

instance : DecidableRel keyLE := fun a b =>
  inferInstanceAs (Decidable (a.1 ≤ b.1))

instance : IsTotal (String × JValue) keyLE :=
  ⟨fun a b => le_total a.1 b.1⟩

instance : IsTrans (String × JValue) keyLE :=
  ⟨fun _ _ _ h1 h2 => le_trans h1 h2⟩

/-- The order in which `json.dumps(..., sort_keys=True)` emits the
envelope's entries: the entries sorted by key (a stable sort of the
envelope's insertion order). -/
def sortByKey (l : List (String × JValue)) : List (String × JValue) :=
  l.insertionSort keyLE

/-- An HTTP response: status, content type, and the serialized JSON body as
its ordered list of top-level entries. -/
structure HttpResponse where
  status : Nat
  contentType : String
  body : List (String × JValue)

/-- The `envelope` dict `_wrap_response` builds before serialization:
`metadata or {}`, plus the data entry when data is not None. -/
def wrapEnvelope (data : Option JValue)
    (metadata : Option (List (String × JValue))) :
    List (String × JValue) :=
  let envelope := metadata.getD []
  match data with
  | some d => dictInsert envelope "data" d
  | none => envelope

/-- `_wrap_response`: merge `metadata or {}` with the data (when present)
and serialize with sorted keys. -/
def wrapResponse (data : Option JValue)
    (metadata : Option (List (String × JValue))) (status : Nat) :
    HttpResponse :=
  HttpResponse.mk status "application/json"
    (sortByKey (wrapEnvelope data metadata))

/-- Whether a serialized body contains a given top-level key. -/
def bodyHasKey (resp : HttpResponse) (k : String) : Bool :=
  resp.body.any (fun p => p.1 == k)

/-! ## list_statuses (lines 126-179) and submit_batches input checks
(lines 80-91) -/

/-- Lines 80-81 of `submit_batches`:
`if request.headers['Content-Type'] != 'application/octet-stream': return
errors.WrongBodyType()`.  Indexing `request.headers` raises `KeyError` when
the header is absent. -/
def submitContentTypeCheck (headers : List (String × String)) : PyOutcome Unit :=
  match headers.lookup "Content-Type" with
  | none => PyOutcome.exn "KeyError"
  | some v =>
    if v != "application/octet-stream" then PyOutcome.clientError RestError.WrongBodyType
    else PyOutcome.ok ()

/-- The POST branch of `list_statuses` (lines 142-153): Content-Type must
be `application/json` (indexing raises `KeyError` when absent), then the
JSON body must be a list, non-empty, and its element 0 must be a `str`;
`body` is the already-decoded JSON request body. -/
def listStatusesParsePost (headers : List (String × String)) (body : JValue) :
    PyOutcome (List JValue) :=
  match headers.lookup "Content-Type" with
  | none => PyOutcome.exn "KeyError"
  | some ct =>
    if ct != "application/json" then PyOutcome.clientError RestError.BadStatusBody
    else
      match body with
      | .arr ids =>
        if ids.length = 0 then PyOutcome.clientError RestError.MissingStatusId
        else if !(ids.headD .null).isStr then PyOutcome.clientError RestError.BadStatusBody
        else PyOutcome.ok ids
      | _ => PyOutcome.clientError RestError.BadStatusBody

/-- The GET branch of `list_statuses` (lines 155-159):
`request.url.query['id'].split(',')`, with the `KeyError` on an absent
parameter caught and turned into `MissingStatusId`. -/
def listStatusesParseGet (query : List (String × String)) :
    PyOutcome (List String) :=
  match query.lookup "id" with
  | none => PyOutcome.clientError RestError.MissingStatusId
  | some v => PyOutcome.ok (pySplitComma v)

/-- Lines 171-179 of `list_statuses`: metadata is computed only for non-POST
requests (`metadata = None` for POST), then
`_wrap_response(data=response.get('batch_statuses'), metadata=metadata)`.
`batchStatuses` is the reply dict's `batch_statuses` entry. -/
def listStatusesEnvelope (isPost : Bool) (r : HttpRequest)
    (headId : Option String) (batchStatuses : JValue) : HttpResponse :=
  let metadata :=
    if isPost then none
    else some ((getMetadata r headId).map (fun p => (p.1, JValue.str p.2)))
  wrapResponse (some batchStatuses) metadata 200

/-! ## Theorems -/

/-- C1: For every submit_batches call that passes input validation and whose
validator query succeeds: if the reply's batch_statuses map is empty or
absent, the HTTP status is 202 and the link targets the batch_status
resource listing the submitted batch ids in input order; if at least one
returned status is not COMMITTED, the HTTP status is 200 and data equals the
returned status map; if the map is non-empty and every status is COMMITTED,
the HTTP status is 201, the data field is absent, and the link is the
202-case link with the batch_status path segment substituted by batches. -/
theorem submit_batches_status_selection (scheme host : String)
    (batchIds : List String) (sts : List (String × String)) :
    (sts = [] →
      submitEnvelope scheme host batchIds sts =
        (202, none,
          scheme ++ "://" ++ host ++ "/batch_status?id=" ++
            String.intercalate "," batchIds)) ∧
    ((∃ p ∈ sts, p.2 ≠ "COMMITTED") →
      submitEnvelope scheme host batchIds sts =
        (200, some sts,
          scheme ++ "://" ++ host ++ "/batch_status?id=" ++
            String.intercalate "," batchIds)) ∧
    (sts ≠ [] → (∀ p ∈ sts, p.2 = "COMMITTED") →
      submitEnvelope scheme host batchIds sts =
        (201, none,
          pyReplace
            (scheme ++ "://" ++ host ++ "/batch_status?id=" ++
              String.intercalate "," batchIds) "batch_status" "batches")) := by
  refine ⟨fun h => ?_, fun h => ?_, fun h1 h2 => ?_⟩
  · subst h; rfl
  · obtain ⟨p, hp, hne⟩ := h
    have hemp : sts.isEmpty = false := by
      cases sts with
      | nil => exact absurd hp (List.not_mem_nil p)
      | cons a l => rfl
    have hany : sts.any (fun q => q.2 != "COMMITTED") = true :=
      List.any_eq_true.mpr ⟨p, hp, by simpa using hne⟩
    simp [submitEnvelope, submitLink, hemp, hany]
  · have hemp : sts.isEmpty = false := by
      cases sts with
      | nil => exact absurd rfl h1
      | cons a l => rfl
    have hany : sts.any (fun q => q.2 != "COMMITTED") = false := by
      rw [← Bool.not_eq_true]
      intro hc
      obtain ⟨p, hp, hne⟩ := List.any_eq_true.mp hc
      exact (by simpa using hne : p.2 ≠ "COMMITTED") (h2 p hp)
    simp [submitEnvelope, submitLink, hemp, hany]

/-- Witness for C1: a two-batch submission whose statuses are all COMMITTED
yields 201, no data, and the batches link. -/
theorem submit_batches_status_selection_witness :
    submitEnvelope "http" "localhost" ["aa", "bb"]
        [("aa", "COMMITTED"), ("bb", "COMMITTED")] =
      (201, none, "http://localhost/batches?id=aa,bb") := by
  have h :=
    (submit_batches_status_selection "http" "localhost" ["aa", "bb"]
        [("aa", "COMMITTED"), ("bb", "COMMITTED")]).2.2 (by decide) (by decide)
  exact h.trans (by decide)

/-- C5: awaiting the future raising a timeout, or reading the resolved
reply's content raising a connection error, makes _try_validator_request
raise ValidatorUnavailable; exactly one stream send is performed (no retry);
in all other cases the reply content is returned unchanged. -/
theorem validator_request_unavailable (messageType : Nat) (content : String)
    (future : FutureOutcome) :
    (tryValidatorRequest messageType content future).1 =
      [(messageType, content)] ∧
    (future = FutureOutcome.timedOut ∨ future = FutureOutcome.connectionLost →
      (tryValidatorRequest messageType content future).2 =
        Except.error RestError.ValidatorUnavailable) ∧
    (∀ c, future = FutureOutcome.content c →
      (tryValidatorRequest messageType content future).2 = Except.ok c) := by
  refine ⟨rfl, fun h => ?_, fun c hc => ?_⟩
  · rcases h with h | h <;> subst h <;> rfl
  · subst hc; rfl

/-- Witness for C5: a timed-out future yields ValidatorUnavailable. -/
theorem validator_request_unavailable_witness :
    (tryValidatorRequest 1 "payload" FutureOutcome.timedOut).2 =
      Except.error RestError.ValidatorUnavailable :=
  (validator_request_unavailable 1 "payload" FutureOutcome.timedOut).2.1
    (Or.inl rfl)

/-- C6 counterexample: the claim says the wait fields are left unset exactly
when the wait parameter is absent or is the literal value "false"; but for
wait = "False" — neither absent nor literally "false" — the code compares
lowercased and leaves the fields unset. -/
theorem set_wait_case_counterexample :
    setWait 300 (some "False") {} = {} ∧
    (some "False" ≠ (none : Option String)) ∧ ("False" : String) ≠ "false" := by
  refine ⟨by decide, by decide, by decide⟩

/-- C6 (amended): _set_wait leaves the wait fields unset exactly when the
wait query parameter is absent or its lowercased value is "false";
otherwise it sets wait_for_commit and sets the timeout to int(wait) when the
parameter parses as an integer and to int(0.95 * configured timeout)
otherwise. -/
theorem set_wait_spec (timeoutCfg : Nat) (w : Option String)
    (q : ValidatorQuery) :
    (pyLower (w.getD "false") = "false" → setWait timeoutCfg w q = q) ∧
    (pyLower (w.getD "false") ≠ "false" →
      (setWait timeoutCfg w q).wait_for_commit = true ∧
      (setWait timeoutCfg w q).timeout =
        (match pyInt (w.getD "false") with
         | some n => n
         | none => (timeoutCfg * 95 / 100 : Nat))) ∧
    (setWait timeoutCfg w {} = {} ↔ pyLower (w.getD "false") = "false") := by
  refine ⟨fun h => ?_, fun h => ?_, ?_, fun h => ?_⟩
  · simp [setWait, h]
  · have hb : (pyLower (w.getD "false") != "false") = true := bne_iff_ne.mpr h
    constructor <;> simp [setWait, hb]
  · intro h
    by_contra hne
    have hb : (pyLower (w.getD "false") != "false") = true := bne_iff_ne.mpr hne
    have hw : (setWait timeoutCfg w {}).wait_for_commit = true := by
      simp [setWait, hb]
    rw [h] at hw
    exact absurd hw (by decide)
  · simp [setWait, h]

/-- Witness for C6 (amended): wait = "10" sets wait_for_commit and the
integer timeout 10. -/
theorem set_wait_spec_witness :
    (setWait 300 (some "10") {}).wait_for_commit = true ∧
    (setWait 300 (some "10") {}).timeout = 10 := by
  have h := (set_wait_spec 300 (some "10") {}).2.1 (by decide)
  exact ⟨h.1, h.2.trans (by decide)⟩

/-- C9: for a request URL with query parameters address=000000 and head=abc
and a reply whose head id is the requested "abc" (the validator echoes the
head it used; no override), the metadata link is the scheme, host and path
plus the query head=abc then address=000000, and head is "abc". -/
theorem metadata_roundtrip_concrete :
    getMetadata
        (HttpRequest.mk "http" "api.node.example" "/state"
          [("address", "000000"), ("head", "abc")])
        (some "abc") =
      [("head", "abc"),
       ("link", "http://api.node.example/state?head=abc&address=000000")] := by
  decide

/-- C3: _get_metadata returns exactly one entry, link = the verbatim request
URL (no head key), when the reply carries no head id; otherwise it returns
head plus a link rebuilt from scheme, host and path with head pinned first
and every original query parameter except head appended in original order. -/
theorem metadata_spec (r : HttpRequest) (headId : Option String) :
    ((headId = none ∨ headId = some "") →
      getMetadata r headId = [("link", r.urlString)]) ∧
    (∀ h, headId = some h → h ≠ "" →
      getMetadata r headId =
        [("head", h),
         ("link",
           if ((r.query.filter (fun p => p.1 != "head")).map
               (fun p => p.1 ++ "=" ++ p.2)).length > 0 then
             r.scheme ++ "://" ++ r.host ++ r.path ++ "?head=" ++ h ++ "&" ++
               String.intercalate "&"
                 ((r.query.filter (fun p => p.1 != "head")).map
                   (fun p => p.1 ++ "=" ++ p.2))
           else r.scheme ++ "://" ++ r.host ++ r.path ++ "?head=" ++ h)]) := by
  constructor
  · intro h
    rcases h with h | h <;> subst h <;> rfl
  · intro h hh hne
    subst hh
    simp only [getMetadata, Option.getD]
    rw [if_neg hne]

/-- Witness for C3: a reply head id "zz" pins the head in the rebuilt link
and keeps the id filter. -/
theorem metadata_spec_witness :
    getMetadata (HttpRequest.mk "http" "host1" "/blocks" [("id", "x,y")])
        (some "zz") =
      [("head", "zz"), ("link", "http://host1/blocks?head=zz&id=x,y")] := by
  have h := (metadata_spec (HttpRequest.mk "http" "host1" "/blocks"
      [("id", "x,y")]) (some "zz")).2 "zz" rfl (by decide)
  exact h.trans (by decide)

/-- Evaluating the trap loop over appended lists: the left list is
consulted first. -/
theorem runTraps_append (ts us : List ErrorTrap) (status : Nat) :
    runTraps (ts ++ us) status =
      (match runTraps ts status with
       | some e => some e
       | none => runTraps us status) := by
  induction ts with
  | nil => simp [runTraps]
  | cons t ts ih =>
    simp only [List.cons_append, runTraps]
    cases t.check status <;> simp [ih]

/-- No trap in the list matches the status: the loop falls through. -/
theorem runTraps_none (ts : List ErrorTrap) (status : Nat)
    (h : ∀ u ∈ ts, u.code ≠ status) : runTraps ts status = none := by
  induction ts with
  | nil => rfl
  | cons t ts ih =>
    have ht : t.check status = none := by
      unfold ErrorTrap.check
      exact if_neg (fun hc => (h t (List.mem_cons_self t ts)) hc.symm)
    simp only [runTraps, ht]
    exact ih (fun u hu => h u (List.mem_cons_of_mem t hu))

/-- The first matching trap in the list determines the outcome. -/
theorem runTraps_first (pre : List ErrorTrap) (t : ErrorTrap)
    (post : List ErrorTrap) (status : Nat)
    (hpre : ∀ u ∈ pre, u.code ≠ status) (ht : t.code = status) :
    runTraps (pre ++ t :: post) status = some t.error := by
  rw [runTraps_append, runTraps_none pre status hpre]
  simp [runTraps, ErrorTrap.check, ht]

/-- The baseline traps match in the fixed order Unknown, NotReady,
MissingHead, each skipped when its status enum member is absent. -/
theorem runTraps_baseline (p : ProtoStatuses) (status : Nat) :
    runTraps (baselineTraps p) status =
      (if p.internalErrorCode = some status then some "Unknown"
       else if p.notReadyCode = some status then some "NotReady"
       else if p.noRootCode = some status then some "MissingHead"
       else none) := by
  rcases p with ⟨iE, nR, nRt⟩
  rcases iE with _ | c1 <;> rcases nR with _ | c2 <;> rcases nRt with _ | c3 <;>
    simp only [baselineTraps, List.nil_append, List.append_nil,
      List.cons_append, runTraps, ErrorTrap.check] <;>
    split_ifs with h1 h2 h3 <;>
    simp_all [eq_comm]

/-- C2: _try_response_parse checks the endpoint-specific traps first, in the
order given, then the baseline traps Unknown (INTERNAL_ERROR), NotReady
(NOT_READY) and MissingHead (NO_ROOT) appended after them in that order; a
baseline trap whose status code is not defined on the reply type is skipped
without error; the first matching trap raises before any later trap is
consulted, and if none matches the parsed payload is returned as a dict. -/
theorem trap_chain_precedence (p : ProtoStatuses)
    (endpointTraps : List ErrorTrap) (status : Nat)
    (payload : List (String × JValue)) :
    (∀ pre t post, endpointTraps = pre ++ t :: post →
      (∀ u ∈ pre, u.code ≠ status) → t.code = status →
      tryResponseParse p endpointTraps status payload =
        Except.error t.error) ∧
    ((∀ u ∈ endpointTraps, u.code ≠ status) →
      (p.internalErrorCode = some status →
        tryResponseParse p endpointTraps status payload =
          Except.error "Unknown") ∧
      (p.internalErrorCode ≠ some status → p.notReadyCode = some status →
        tryResponseParse p endpointTraps status payload =
          Except.error "NotReady") ∧
      (p.internalErrorCode ≠ some status → p.notReadyCode ≠ some status →
        p.noRootCode = some status →
        tryResponseParse p endpointTraps status payload =
          Except.error "MissingHead") ∧
      (p.internalErrorCode ≠ some status → p.notReadyCode ≠ some status →
        p.noRootCode ≠ some status →
        tryResponseParse p endpointTraps status payload =
          Except.ok payload)) := by
  constructor
  · intro pre t post hsplit hpre ht
    subst hsplit
    unfold tryResponseParse
    rw [List.append_assoc, List.cons_append,
      runTraps_first pre t (post ++ baselineTraps p) status hpre ht]
  · intro hnone
    unfold tryResponseParse
    rw [runTraps_append, runTraps_none endpointTraps status hnone,
      runTraps_baseline]
    refine ⟨fun h1 => ?_, fun h1 h2 => ?_, fun h1 h2 h3 => ?_,
      fun h1 h2 h3 => ?_⟩
    · simp [h1]
    · simp [h1, h2]
    · simp [h1, h2, h3]
    · simp [h1, h2, h3]

/-- Witness for C2: with the endpoint trap not matching, NOT_READY absent
from the reply type (skipped without error), and the status equal to the
NO_ROOT code, the MissingHead baseline trap fires. -/
theorem trap_chain_precedence_witness :
    tryResponseParse (ProtoStatuses.mk (some 5) none (some 7))
        [ErrorTrap.mk 9 "InvalidBatch"] 7 [] = Except.error "MissingHead" :=
  ((trap_chain_precedence (ProtoStatuses.mk (some 5) none (some 7))
      [ErrorTrap.mk 9 "InvalidBatch"] 7 []).2 (by decide)).2.2.1
    (by decide) (by decide) rfl

/-- A successful fallible comprehension preserves the element count. -/
theorem expandList_length {α β : Type} (f : α → Option β) :
    ∀ (xs : List α) (ys : List β), expandList f xs = some ys →
      ys.length = xs.length := by
  intro xs
  induction xs with
  | nil =>
    intro ys h
    simp only [expandList, Option.some.injEq] at h
    subst h; rfl
  | cons x xs ih =>
    intro ys h
    simp only [expandList] at h
    cases hf : f x with
    | none => rw [hf] at h; cases h
    | some y =>
      rw [hf] at h
      cases hrest : expandList f xs with
      | none => rw [hrest] at h; cases h
      | some ys2 =>
        rw [hrest] at h
        simp only [Option.some.injEq] at h
        subst h
        simp [ih ys2 hrest]

/-- A successful fallible comprehension yields elements that all satisfy
any property its element transform guarantees. -/
theorem expandList_all {α β : Type} (f : α → Option β) (p : β → Bool)
    (hf : ∀ x y, f x = some y → p y = true) :
    ∀ (xs : List α) (ys : List β), expandList f xs = some ys →
      ys.all p = true := by
  intro xs
  induction xs with
  | nil =>
    intro ys h
    simp only [expandList, Option.some.injEq] at h
    subst h; rfl
  | cons x xs ih =>
    intro ys h
    simp only [expandList] at h
    cases hf2 : f x with
    | none => rw [hf2] at h; cases h
    | some y =>
      rw [hf2] at h
      cases hrest : expandList f xs with
      | none => rw [hrest] at h; cases h
      | some ys2 =>
        rw [hrest] at h
        simp only [Option.some.injEq] at h
        subst h
        simp [List.all_cons, hf x y hf2, ih ys2 hrest]

/-- A successful fallible comprehension commutes with any measure its
element transform preserves. -/
theorem expandList_map_eq {α β γ : Type} (f : α → Option β) (g : β → γ)
    (g' : α → γ) (hf : ∀ x y, f x = some y → g y = g' x) :
    ∀ (xs : List α) (ys : List β), expandList f xs = some ys →
      ys.map g = xs.map g' := by
  intro xs
  induction xs with
  | nil =>
    intro ys h
    simp only [expandList, Option.some.injEq] at h
    subst h; rfl
  | cons x xs ih =>
    intro ys h
    simp only [expandList] at h
    cases hf2 : f x with
    | none => rw [hf2] at h; cases h
    | some y =>
      rw [hf2] at h
      cases hrest : expandList f xs with
      | none => rw [hrest] at h; cases h
      | some ys2 =>
        rw [hrest] at h
        simp only [Option.some.injEq] at h
        subst h
        simp [hf x y hf2, ih ys2 hrest]

/-- A transaction returned by _expand_transaction has a structured header. -/
theorem expandTransaction_expanded
    (decode : String → Option (List (String × String)))
    (t t2 : TransactionRec) (h : expandTransaction decode t = some t2) :
    t2.fullyExpanded = true := by
  unfold expandTransaction at h
  cases hp : parseHeaderField decode t.header with
  | none => rw [hp] at h; cases h
  | some d =>
    rw [hp] at h
    simp only [Option.map_some', Option.some.injEq] at h
    subst h; rfl

/-- A batch returned by _expand_batch is fully expanded and keeps its
transaction count. -/
theorem expandBatch_spec (decode : String → Option (List (String × String)))
    (b b2 : BatchRec) (h : expandBatch decode b = some b2) :
    b2.fullyExpanded = true ∧ b2.shape = b.shape := by
  unfold expandBatch at h
  cases hp : parseHeaderField decode b.header with
  | none =>
    simp only [hp] at h
    exact Option.noConfusion h
  | some d =>
    simp only [hp] at h
    cases hts : b.transactions with
    | none =>
      simp only [hts, Option.some.injEq] at h
      subst h
      exact ⟨rfl, by simp [BatchRec.shape, hts]⟩
    | some ts =>
      simp only [hts] at h
      cases hel : expandList (expandTransaction decode) ts with
      | none =>
        simp only [hel, Option.map_none'] at h
        exact Option.noConfusion h
      | some ts2 =>
        simp only [hel, Option.map_some', Option.some.injEq] at h
        subst h
        constructor
        · simp only [BatchRec.fullyExpanded, HeaderField.isExpanded,
            Bool.true_and]
          exact expandList_all (expandTransaction decode)
            TransactionRec.fullyExpanded
            (fun x y hy => expandTransaction_expanded decode x y hy) ts ts2 hel
        · simp [BatchRec.shape, hts,
            expandList_length (expandTransaction decode) ts ts2 hel]

/-- C4: for every block record whose headers (at all nesting depths) decode
successfully, _expand_block returns a record with no base64 header left at
any depth — every header structured, children expanded before the parent is
returned — and with the batch count and per-batch transaction counts
preserved exactly.  (The hypothesis `expandBlock decode blk = some blk2`
holds exactly when every header is valid; a failed decode propagates as
`none`.) -/
theorem expand_block_structure
    (decode : String → Option (List (String × String)))
    (blk blk2 : BlockRec) (h : expandBlock decode blk = some blk2) :
    blk2.fullyExpanded = true ∧ blk2.shape = blk.shape := by
  unfold expandBlock at h
  cases hp : parseHeaderField decode blk.header with
  | none =>
    simp only [hp] at h
    exact Option.noConfusion h
  | some d =>
    simp only [hp] at h
    cases hbs : blk.batches with
    | none =>
      simp only [hbs, Option.some.injEq] at h
      subst h
      exact ⟨rfl, by simp [BlockRec.shape, hbs]⟩
    | some bs =>
      simp only [hbs] at h
      cases hel : expandList (expandBatch decode) bs with
      | none =>
        simp only [hel, Option.map_none'] at h
        exact Option.noConfusion h
      | some bs2 =>
        simp only [hel, Option.map_some', Option.some.injEq] at h
        subst h
        constructor
        · simp only [BlockRec.fullyExpanded, HeaderField.isExpanded,
            Bool.true_and]
          exact expandList_all (expandBatch decode) BatchRec.fullyExpanded
            (fun x y hy => (expandBatch_spec decode x y hy).1) bs bs2 hel
        · simp only [BlockRec.shape, hbs, Option.map_some', Option.some.injEq]
          exact expandList_map_eq (expandBatch decode) BatchRec.shape
            BatchRec.shape (fun x y hy => (expandBatch_spec decode x y hy).2)
            bs bs2 hel

/-- Witness for C4: a one-batch, one-transaction block with every header a
decodable base64 string expands to a record with all headers structured and
the counts preserved. -/
theorem expand_block_structure_witness :
    (BlockRec.mk (HeaderField.expanded [("raw", "bh")])
      (some [BatchRec.mk (HeaderField.expanded [("raw", "ah")])
        (some [TransactionRec.mk
          (HeaderField.expanded [("raw", "th")])])])).fullyExpanded = true ∧
    (BlockRec.mk (HeaderField.expanded [("raw", "bh")])
      (some [BatchRec.mk (HeaderField.expanded [("raw", "ah")])
        (some [TransactionRec.mk
          (HeaderField.expanded [("raw", "th")])])])).shape =
      (BlockRec.mk (HeaderField.encoded "bh")
        (some [BatchRec.mk (HeaderField.encoded "ah")
          (some [TransactionRec.mk (HeaderField.encoded "th")])])).shape :=
  expand_block_structure (fun s => some [("raw", s)])
    (BlockRec.mk (HeaderField.encoded "bh")
      (some [BatchRec.mk (HeaderField.encoded "ah")
        (some [TransactionRec.mk (HeaderField.encoded "th")])]))
    (BlockRec.mk (HeaderField.expanded [("raw", "bh")])
      (some [BatchRec.mk (HeaderField.expanded [("raw", "ah")])
        (some [TransactionRec.mk (HeaderField.expanded [("raw", "th")])])]))
    rfl

/-- Inserting a key absent from the envelope appends it. -/
theorem dictInsert_of_fresh (env : List (String × JValue)) (k : String)
    (v : JValue) (h : ∀ p ∈ env, p.1 ≠ k) :
    dictInsert env k v = env ++ [(k, v)] := by
  unfold dictInsert
  have hany : env.any (fun p => p.1 == k) = false := by
    rw [← Bool.not_eq_true, List.any_eq_true]
    rintro ⟨p, hp, hpk⟩
    exact h p hp (by simpa using hpk)
  rw [hany]
  simp

/-- A key is in the serialized body iff an envelope entry carries it. -/
theorem bodyHasKey_iff (data : Option JValue)
    (metadata : Option (List (String × JValue))) (status : Nat) (k : String) :
    bodyHasKey (wrapResponse data metadata status) k = true ↔
      ∃ p ∈ wrapEnvelope data metadata, p.1 = k := by
  unfold bodyHasKey wrapResponse sortByKey
  simp [List.any_eq_true]

/-- C7 counterexample: the claim says the link key is always present in the
body, but the POST branch of list_statuses passes metadata = None, so the
envelope the gateway builds there has data as its only key and no link. -/
theorem wrap_link_counterexample :
    (listStatusesEnvelope true (HttpRequest.mk "http" "h" "/batch_status" [])
        none (JValue.obj [("aaa", JValue.str "PENDING")])).body =
      [("data", JValue.obj [("aaa", JValue.str "PENDING")])] ∧
    bodyHasKey
      (listStatusesEnvelope true (HttpRequest.mk "http" "h" "/batch_status" [])
        none (JValue.obj [("aaa", JValue.str "PENDING")])) "link" = false :=
  ⟨rfl, rfl⟩

/-- C7 (amended): in every response envelope built by the gateway, the data
key is present iff data is not absent (absent data is omitted, never
serialized as null), the body is serialized with deterministically sorted
keys, and every metadata entry — in particular link, which every handler
that passes metadata includes — appears in the body; when no metadata is
passed (the POST branch of list_statuses) the body can only contain the
data key, so its link is absent. -/
theorem wrap_response_envelope (data : Option JValue)
    (metadata : Option (List (String × JValue))) (status : Nat)
    (hnd : ∀ p ∈ metadata.getD [], p.1 ≠ "data") :
    List.Sorted keyLE (wrapResponse data metadata status).body ∧
    (bodyHasKey (wrapResponse data metadata status) "data" = true ↔
      data ≠ none) ∧
    (∀ p ∈ metadata.getD [],
      bodyHasKey (wrapResponse data metadata status) p.1 = true) ∧
    (metadata = none → ∀ k,
      bodyHasKey (wrapResponse data metadata status) k = true → k = "data") := by
  refine ⟨?_, ?_, ?_, ?_⟩
  · exact List.sorted_insertionSort keyLE (wrapEnvelope data metadata)
  · rw [bodyHasKey_iff]
    cases data with
    | none =>
      simp only [wrapEnvelope]
      constructor
      · rintro ⟨p, hp, hpk⟩
        exact absurd hpk (hnd p hp)
      · intro h
        exact absurd rfl h
    | some d =>
      simp only [wrapEnvelope, dictInsert_of_fresh _ _ _ hnd]
      constructor
      · intro _
        exact Option.some_ne_none d
      · intro _
        exact ⟨("data", d), List.mem_append_right _ (List.mem_singleton_self _),
          rfl⟩
  · intro p hp
    rw [bodyHasKey_iff]
    refine ⟨p, ?_, rfl⟩
    cases data with
    | none => exact hp
    | some d =>
      simp only [wrapEnvelope, dictInsert_of_fresh _ _ _ hnd]
      exact List.mem_append_left _ hp
  · intro hm k hk
    subst hm
    rw [bodyHasKey_iff] at hk
    obtain ⟨p, hp, hpk⟩ := hk
    cases data with
    | none => simp [wrapEnvelope] at hp
    | some d =>
      simp only [wrapEnvelope, Option.getD_none] at hp
      have : dictInsert [] "data" d = [("data", d)] := rfl
      rw [this] at hp
      rw [List.mem_singleton] at hp
      subst hp
      exact hpk.symm

/-- Witness for C7 (amended): a GET-style envelope with a link metadata
entry and data present has a sorted body containing both keys. -/
theorem wrap_response_envelope_witness :
    List.Sorted keyLE
      (wrapResponse (some (JValue.str "x"))
        (some [("link", JValue.str "l")]) 200).body ∧
    bodyHasKey (wrapResponse (some (JValue.str "x"))
      (some [("link", JValue.str "l")]) 200) "data" = true ∧
    bodyHasKey (wrapResponse (some (JValue.str "x"))
      (some [("link", JValue.str "l")]) 200) "link" = true := by
  have h := wrap_response_envelope (some (JValue.str "x"))
    (some [("link", JValue.str "l")]) 200
    (by intro p hp; simp at hp; subst hp; decide)
  refine ⟨h.1, ?_, ?_⟩
  · exact h.2.1.mpr (by simp)
  · exact h.2.2.1 ("link", JValue.str "l") (by simp)

/-- POST parse with no Content-Type header: indexing raises KeyError. -/
theorem listStatusesParsePost_noHeader (headers : List (String × String))
    (body : JValue) (hl : headers.lookup "Content-Type" = none) :
    listStatusesParsePost headers body = PyOutcome.exn "KeyError" := by
  unfold listStatusesParsePost
  rw [hl]

/-- POST parse with a wrong Content-Type value: BadStatusBody. -/
theorem listStatusesParsePost_wrongType (headers : List (String × String))
    (body : JValue) (ct : String)
    (hl : headers.lookup "Content-Type" = some ct)
    (hct : ct ≠ "application/json") :
    listStatusesParsePost headers body =
      PyOutcome.clientError RestError.BadStatusBody := by
  unfold listStatusesParsePost
  simp only [hl]
  rw [if_pos (bne_iff_ne.mpr hct)]

/-- POST parse of a JSON array body under application/json reduces to the
length and first-element checks. -/
theorem listStatusesParsePost_arr (headers : List (String × String))
    (xs : List JValue)
    (hl : headers.lookup "Content-Type" = some "application/json") :
    listStatusesParsePost headers (JValue.arr xs) =
      (if xs.length = 0 then PyOutcome.clientError RestError.MissingStatusId
       else if (!(xs.headD JValue.null).isStr) = true then
         PyOutcome.clientError RestError.BadStatusBody
       else PyOutcome.ok xs) := by
  unfold listStatusesParsePost
  rw [hl]
  rfl

/-- POST parse of a non-array JSON body under application/json:
BadStatusBody. -/
theorem listStatusesParsePost_nonArr (headers : List (String × String))
    (body : JValue)
    (hl : headers.lookup "Content-Type" = some "application/json")
    (hb : ∀ xs, body ≠ JValue.arr xs) :
    listStatusesParsePost headers body =
      PyOutcome.clientError RestError.BadStatusBody := by
  unfold listStatusesParsePost
  rw [hl]
  cases body with
  | arr xs => exact absurd rfl (hb xs)
  | null => rfl
  | str s => rfl
  | num n => rfl
  | bool b => rfl
  | obj fields => rfl

/-- A POST that does carry a Content-Type header yields either an accepted
id list or a client error — never an uncaught exception. -/
theorem listStatusesParsePost_with_header (headers : List (String × String))
    (body : JValue) (ct : String)
    (hl : headers.lookup "Content-Type" = some ct) :
    (∃ ids, listStatusesParsePost headers body = PyOutcome.ok ids) ∨
    (∃ e, listStatusesParsePost headers body = PyOutcome.clientError e) := by
  by_cases hct : ct = "application/json"
  · subst hct
    cases body with
    | arr xs =>
      rw [listStatusesParsePost_arr headers xs hl]
      by_cases hlen : xs.length = 0
      · exact Or.inr ⟨RestError.MissingStatusId, by rw [if_pos hlen]⟩
      · by_cases hstr : (!(xs.headD JValue.null).isStr) = true
        · exact Or.inr ⟨RestError.BadStatusBody,
            by rw [if_neg hlen, if_pos hstr]⟩
        · exact Or.inl ⟨xs, by rw [if_neg hlen, if_neg hstr]⟩
    | null =>
      exact Or.inr ⟨_, listStatusesParsePost_nonArr headers _ hl
        (fun xs h => by cases h)⟩
    | str s =>
      exact Or.inr ⟨_, listStatusesParsePost_nonArr headers _ hl
        (fun xs h => by cases h)⟩
    | num n =>
      exact Or.inr ⟨_, listStatusesParsePost_nonArr headers _ hl
        (fun xs h => by cases h)⟩
    | bool b =>
      exact Or.inr ⟨_, listStatusesParsePost_nonArr headers _ hl
        (fun xs h => by cases h)⟩
    | obj fields =>
      exact Or.inr ⟨_, listStatusesParsePost_nonArr headers _ hl
        (fun xs h => by cases h)⟩
  · exact Or.inr ⟨RestError.BadStatusBody,
      listStatusesParsePost_wrongType headers body ct hl hct⟩

/-- C8 counterexample: the claim says a POST returns a client error unless
the body is a non-empty JSON array consisting of strings; but the code only
type-checks element 0, so the mixed array ["a", 42] — not an array of
strings — passes validation and is sent to the backend. -/
theorem list_statuses_first_element_counterexample :
    listStatusesParsePost [("Content-Type", "application/json")]
        (JValue.arr [JValue.str "a", JValue.num 42]) =
      PyOutcome.ok [JValue.str "a", JValue.num 42] ∧
    (JValue.num 42).isStr = false :=
  ⟨rfl, rfl⟩

/-- C8 (amended): for POST requests that carry a Content-Type header, the
body is accepted — and forwarded to the backend — exactly when the header is
application/json and the decoded body is a non-empty JSON array whose first
element is a string (elements after the first are not type-checked); every
other such POST gets a client error.  A GET returns MissingStatusId exactly
when the id query parameter is absent, while a present parameter — even one
denoting an empty list — is split on commas and sent to the backend. -/
theorem list_statuses_input_validation (headers : List (String × String))
    (body : JValue) (query : List (String × String)) :
    (∀ ids, listStatusesParsePost headers body = PyOutcome.ok ids ↔
      (headers.lookup "Content-Type" = some "application/json" ∧
        body = JValue.arr ids ∧ ids ≠ [] ∧
        (ids.headD JValue.null).isStr = true)) ∧
    (∀ ct, headers.lookup "Content-Type" = some ct →
      (∃ ids, listStatusesParsePost headers body = PyOutcome.ok ids) ∨
      (∃ e, listStatusesParsePost headers body = PyOutcome.clientError e)) ∧
    (listStatusesParseGet query =
        PyOutcome.clientError RestError.MissingStatusId ↔
      query.lookup "id" = none) ∧
    (∀ v, query.lookup "id" = some v →
      listStatusesParseGet query = PyOutcome.ok (pySplitComma v)) := by
  refine ⟨?_, ?_, ?_, ?_⟩
  · intro ids
    cases hl : headers.lookup "Content-Type" with
    | none =>
      rw [listStatusesParsePost_noHeader headers body hl]
      constructor
      · intro h; cases h
      · rintro ⟨hc, -⟩; cases hc
    | some ct =>
      by_cases hct : ct = "application/json"
      · subst hct
        cases body with
        | arr xs =>
          rw [listStatusesParsePost_arr headers xs hl]
          by_cases hlen : xs.length = 0
          · rw [if_pos hlen]
            constructor
            · intro h; cases h
            · rintro ⟨-, hb, hne, -⟩
              injection hb with hb
              subst hb
              exact absurd (List.length_eq_zero.mp hlen) hne
          · rw [if_neg hlen]
            by_cases hstr : (!(xs.headD JValue.null).isStr) = true
            · rw [if_pos hstr]
              constructor
              · intro h; cases h
              · rintro ⟨-, hb, -, hs⟩
                injection hb with hb
                subst hb
                exact absurd hstr (by rw [hs]; decide)
            · rw [if_neg hstr]
              constructor
              · intro h
                injection h with h
                subst h
                refine ⟨rfl, rfl, fun hc => hlen (by rw [hc]; rfl), ?_⟩
                cases hy : (xs.headD JValue.null).isStr with
                | false => exact absurd (by rw [hy]; rfl) hstr
                | true => rfl
              · rintro ⟨-, hb, -, -⟩
                injection hb with hb
                subst hb
                rfl
        | null =>
          rw [listStatusesParsePost_nonArr headers _ hl (fun xs h => by cases h)]
          constructor
          · intro h; cases h
          · rintro ⟨-, hb, -, -⟩; cases hb
        | str s =>
          rw [listStatusesParsePost_nonArr headers _ hl (fun xs h => by cases h)]
          constructor
          · intro h; cases h
          · rintro ⟨-, hb, -, -⟩; cases hb
        | num n =>
          rw [listStatusesParsePost_nonArr headers _ hl (fun xs h => by cases h)]
          constructor
          · intro h; cases h
          · rintro ⟨-, hb, -, -⟩; cases hb
        | bool b =>
          rw [listStatusesParsePost_nonArr headers _ hl (fun xs h => by cases h)]
          constructor
          · intro h; cases h
          · rintro ⟨-, hb, -, -⟩; cases hb
        | obj fields =>
          rw [listStatusesParsePost_nonArr headers _ hl (fun xs h => by cases h)]
          constructor
          · intro h; cases h
          · rintro ⟨-, hb, -, -⟩; cases hb
      · rw [listStatusesParsePost_wrongType headers body ct hl hct]
        constructor
        · intro h; cases h
        · rintro ⟨hc, -⟩
          exact absurd (Option.some.inj hc) hct
  · intro ct hl
    exact listStatusesParsePost_with_header headers body ct hl
  · cases hl : query.lookup "id" with
    | none =>
      rw [show listStatusesParseGet query =
          PyOutcome.clientError RestError.MissingStatusId from
        by unfold listStatusesParseGet; rw [hl]]
      exact ⟨fun _ => rfl, fun _ => rfl⟩
    | some v =>
      rw [show listStatusesParseGet query = PyOutcome.ok (pySplitComma v) from
        by unfold listStatusesParseGet; rw [hl]]
      constructor
      · intro h; cases h
      · intro h; cases h
  · intro v hl
    unfold listStatusesParseGet
    rw [hl]

/-- Witness for C8 (amended): a GET with id=aaa,bbb is split on the comma
and forwarded. -/
theorem list_statuses_input_validation_witness :
    listStatusesParseGet [("id", "aaa,bbb")] = PyOutcome.ok ["aaa", "bbb"] := by
  have h := (list_statuses_input_validation [] JValue.null
      [("id", "aaa,bbb")]).2.2.2 "aaa,bbb" rfl
  exact h.trans (by decide)

/-- C10: a submit_batches or POST list_statuses request with no Content-Type
header at all raises KeyError when the handler indexes request.headers —
propagating as an internal failure, not the 400-class WrongBodyType /
BadStatusBody error — while the 400-class branch is reached exactly when the
header is present with a different value. -/
theorem missing_content_type_raises (headers : List (String × String))
    (body : JValue) :
    (headers.lookup "Content-Type" = none →
      submitContentTypeCheck headers = PyOutcome.exn "KeyError" ∧
      listStatusesParsePost headers body = PyOutcome.exn "KeyError") ∧
    (submitContentTypeCheck headers =
        PyOutcome.clientError RestError.WrongBodyType ↔
      ∃ v, headers.lookup "Content-Type" = some v ∧
        v ≠ "application/octet-stream") ∧
    (listStatusesParsePost headers body = PyOutcome.exn "KeyError" ↔
      headers.lookup "Content-Type" = none) := by
  refine ⟨fun h => ?_, ?_, ?_⟩
  · refine ⟨?_, listStatusesParsePost_noHeader headers body h⟩
    unfold submitContentTypeCheck
    rw [h]
  · cases hl : headers.lookup "Content-Type" with
    | none =>
      rw [show submitContentTypeCheck headers = PyOutcome.exn "KeyError" from
        by unfold submitContentTypeCheck; rw [hl]]
      constructor
      · intro h; cases h
      · rintro ⟨v, hv, -⟩; cases hv
    | some v =>
      by_cases hv : v = "application/octet-stream"
      · subst hv
        rw [show submitContentTypeCheck headers = PyOutcome.ok () from
          by unfold submitContentTypeCheck; rw [hl]; rfl]
        constructor
        · intro h; cases h
        · rintro ⟨v2, hv2, hne⟩
          exact absurd (Option.some.inj hv2).symm hne
      · rw [show submitContentTypeCheck headers =
            PyOutcome.clientError RestError.WrongBodyType from by
          unfold submitContentTypeCheck
          simp only [hl]
          rw [if_pos (bne_iff_ne.mpr hv)]]
        exact ⟨fun _ => ⟨v, rfl, hv⟩, fun _ => rfl⟩
  · cases hl : headers.lookup "Content-Type" with
    | none =>
      rw [listStatusesParsePost_noHeader headers body hl]
      exact ⟨fun _ => rfl, fun _ => rfl⟩
    | some ct =>
      constructor
      · intro h
        rcases listStatusesParsePost_with_header headers body ct hl with
          ⟨ids, hok⟩ | ⟨e, herr⟩
        · rw [hok] at h; cases h
        · rw [herr] at h; cases h
      · intro h; cases h

/-- Witness for C10: with no headers at all, both handlers raise KeyError
instead of returning a 400-class error. -/
theorem missing_content_type_raises_witness :
    submitContentTypeCheck [] = PyOutcome.exn "KeyError" ∧
    listStatusesParsePost [] (JValue.arr []) = PyOutcome.exn "KeyError" :=
  (missing_content_type_raises [] (JValue.arr [])).1 rfl

end SawtoothRestApi
